import Mathlib

/-!
Verification of the DOCUMIND-AI context-retrieval core and frontend
submission logic.

The backend retrieval core (`retrieve_context` and
`extract_documents_by_page` from `qa/index_loader.py`) survives in the
repository only as a compiled artifact whose non-ASCII bytes were
destroyed, so the definitions below are modelled from the specification
(sections 4.1 and 4.2), using the string constants and error messages
recovered from the artifact; where the spec and the artifact's residue
could disagree, the spec's words govern. The frontend definitions
(`handleSubmit`, the document-modal question update) are embedded
directly from the React Native sources.
-/

namespace Documind

/-- A unit of retrieved text with its source/page metadata
(spec section 3; `langchain.schema.Document` in the source). -/
structure Chunk where
  content : String
  source : Option String
  page : Option Int
deriving DecidableEq, Repr

/-- Modelled from the spec: the similarity index (an external
collaborator, `FAISS` in the source); `search` takes a free-text query
and a result count and either returns ranked chunks or raises. -/
structure Index where
  search : String → Nat → Except String (List Chunk)

/-- Whether some accumulated chunk already has this content
(dedup identity is the verbatim `content` string, spec section 3). -/
def contentMem (acc : List Chunk) (c : Chunk) : Bool :=
  acc.any (fun d => d.content == c.content)

/-- Append a chunk unless a chunk with the same content is present. -/
def addUnique (acc : List Chunk) (c : Chunk) : List Chunk :=
  if contentMem acc c then acc else acc ++ [c]

/-- Append all new-content chunks of `cs`, preserving first-seen order. -/
def mergeUnique (acc : List Chunk) (cs : List Chunk) : List Chunk :=
  cs.foldl addUnique acc

/-- Remove duplicate-content chunks, preserving first-seen order. -/
def dedupByContent (cs : List Chunk) : List Chunk :=
  mergeUnique [] cs

/-- The source file name without its extension
(`os.path.splitext(...)[0]` in the source). -/
def baseName (s : String) : String :=
  let cs := s.toList
  if cs.contains '.' then
    String.mk (((cs.reverse.dropWhile (fun c => c ≠ '.')).drop 1).reverse)
  else s

/-- Metadata filter used throughout: the chunk's metadata carries exactly
the requested source and page. -/
def matchesMeta (source : String) (page : Int) (c : Chunk) : Bool :=
  c.source == some source && c.page == some page

/-- Run one index search, treating an index error as "no results"
(the extractor swallows per-strategy failures, spec section 4.1). -/
def searchResults (idx : Index) (q : String) (k : Nat) : List Chunk :=
  match idx.search q k with
  | .ok r => r
  | .error _ => []

/-- First cascade query of the Page-Scoped Extractor. -/
def firstPageQuery (source : String) (page : Int) : String :=
  "content from page " ++ toString page ++ " of " ++ baseName source

/-- Modelled from the spec (section 4.1): the ordered cascade of
(query, k) strategies of the Page-Scoped Extractor. -/
def pageStrategies (source : String) (page : Int) : List (String × Nat) :=
  [ (firstPageQuery source page, 5),
    ("page " ++ toString page, 5),
    ("document " ++ baseName source, 50),
    (baseName source, 50),
    ("", 100) ]

/-- Modelled from the spec (section 4.1): run the cascade, stopping once
the accumulated matching results reach `m`; also returns the trace of
(query, k) pairs actually issued to the index, for the early-exit law. -/
def runStrategies (idx : Index) (s : String) (p : Int) (m : Nat) :
    List (String × Nat) → List Chunk → List Chunk × List (String × Nat)
  | [], acc => (acc, [])
  | (q, n) :: rest, acc =>
    if m ≤ acc.length then (acc, [])
    else
      let acc2 := mergeUnique acc ((searchResults idx q n).filter (matchesMeta s p))
      let r := runStrategies idx s p m rest acc2
      (r.1, (q, n) :: r.2)

/-- Modelled from the spec (section 4.1): the Page-Scoped Extractor with
its issued-query trace. An empty `source` returns immediately; after the
cascade, if `m` is still not reached, one broad scan `search("", 500)` is
performed and its matching results merged in. -/
def extractWithTrace (idx : Index) (source : String) (page : Int) (m : Nat) :
    List Chunk × List (String × Nat) :=
  if source = "" then ([], [])
  else if (runStrategies idx source page m
      (pageStrategies source page) []).1.length < m then
    (mergeUnique (runStrategies idx source page m
        (pageStrategies source page) []).1
      ((searchResults idx "" 500).filter (matchesMeta source page)),
     (runStrategies idx source page m
        (pageStrategies source page) []).2 ++ [("", 500)])
  else runStrategies idx source page m (pageStrategies source page) []

/-- Modelled from the spec (section 4.1): `extract_documents_by_page`
from `qa/index_loader.py` (recovered name), results only. -/
def extract_documents_by_page (idx : Index) (source : String) (page : Int)
    (m : Nat) : List Chunk :=
  (extractWithTrace idx source page m).1

/-- Lowercase a string character-wise (the source applies `.lower()` to
the question before the page regexes). -/
def lowerStr (s : String) : String :=
  String.mk (s.toList.map Char.toLower)

/-- Skip leading whitespace, as the regexes' embedded whitespace-star. -/
def skipWs (cs : List Char) : List Char :=
  cs.dropWhile Char.isWhitespace

/-- The numeric value of a digit run. -/
def digitsToNat (ds : List Char) : Nat :=
  ds.foldl (fun n c => 10 * n + (c.toNat - 48)) 0

/-- Capture a leading nonempty digit run, as the capture group at the
end of both page regexes. -/
def takeDigits (cs : List Char) : Option Nat :=
  let ds := cs.takeWhile Char.isDigit
  if ds.isEmpty then none else some (digitsToNat ds)

/-- Match the regex tail common to both page patterns, at the head of
`cs`: whitespace-star, an optional literal "number", whitespace-star,
then one or more captured digits. -/
def matchAfterPage (cs : List Char) : Option Nat :=
  let cs1 := skipWs cs
  if List.isPrefixOf ['n', 'u', 'm', 'b', 'e', 'r'] cs1 then
    match takeDigits (skipWs (cs1.drop 6)) with
    | some n => some n
    | none => takeDigits cs1
  else takeDigits cs1

/-- Modelled from the spec (section 4.2 step 2): leftmost match of the
primary "page [number] [optional 'number']" pattern against the lowered
question — literal "page" then `matchAfterPage`; on failure at a
position, resume one character later. -/
def findPattern1 : List Char → Option Nat
  | [] => none
  | c :: rest =>
    if List.isPrefixOf ['p', 'a', 'g', 'e'] (c :: rest) then
      match matchAfterPage ((c :: rest).drop 4) with
      | some n => some n
      | none => findPattern1 rest
    else findPattern1 rest

/-- Modelled from the spec (section 4.2 step 2): the head of the looser
secondary pattern, tolerant of the common misspellings of "page" that
the spec names — "paage" and "pge" — at the head of `cs`, returning the
remainder after the matched misspelling. -/
def matchMisspelled (cs : List Char) : Option (List Char) :=
  if List.isPrefixOf ['p', 'a', 'a', 'g', 'e'] cs then some (cs.drop 5)
  else if List.isPrefixOf ['p', 'g', 'e'] cs then some (cs.drop 3)
  else none

/-- Leftmost match of the secondary (misspelling-tolerant) page
pattern, with the same capture semantics as the primary one. -/
def findPattern2 : List Char → Option Nat
  | [] => none
  | c :: rest =>
    match matchMisspelled (c :: rest) with
    | some rem =>
      match matchAfterPage rem with
      | some n => some n
      | none => findPattern2 rest
    | none => findPattern2 rest

/-- Modelled from the spec (section 4.2 step 2): implicit page
detection; the primary pattern is tried on the lowered question and only
if it fails is the looser pattern tried — the first success wins. -/
def detectPage (question : String) : Option Int :=
  match findPattern1 ((lowerStr question).toList) with
  | some n => some (Int.ofNat n)
  | none => (findPattern2 ((lowerStr question).toList)).map Int.ofNat

/-- Modelled from the spec (section 4.2 step 3): the fixed fan-out of
content queries; the fixed query strings and the source/page-conditional
templates are the constants recovered from the artifact. -/
def contentQueries (question : String) (source : Option String)
    (page : Option Int) : List String :=
  let base :=
    [question,
     "document content summary information details",
     "important fields values data information"]
  let withSource :=
    base ++ (match source with
      | some s => [baseName s ++ " content details",
                   baseName s ++ " content information"]
      | none => [])
  withSource ++ (match page with
    | some p => ["content on page " ++ toString p]
    | none => [])

/-- Run every fan-out query with k = 10, accumulating all returned
chunks; an index error aborts the fan-out (it is caught at the
retriever's top level). -/
def fanOut (idx : Index) (queries : List String) :
    Except String (List Chunk) :=
  queries.foldlM (fun acc q => (idx.search q 10).map (fun r => acc ++ r)) []

/-- Modelled from the spec (section 4.2 steps 3 to 5): fan-out, source
narrowing (with the `"document {base}"` fallback when fewer than
`min 3 k` chunks survive the source filter) and page narrowing (falling
back to the Page-Scoped Extractor when the page filter empties the
accumulator). -/
def retrieveDocs (idx : Index) (question : String) (k : Nat)
    (source : Option String) (page : Option Int) :
    Except String (List Chunk) := do
  let docs ← fanOut idx (contentQueries question source page)
  let docs2 ←
    match source with
    | none => pure docs
    | some s =>
      let filtered := docs.filter (fun c => c.source == some s)
      if min 3 k ≤ filtered.length then pure filtered
      else do
        let extra ← idx.search ("document " ++ baseName s) 50
        pure (mergeUnique docs (extra.filter (fun c => c.source == some s)))
  let docs3 :=
    match page with
    | none => docs2
    | some p =>
      let pf := docs2.filter (fun c => c.page == some p)
      if pf.isEmpty then
        mergeUnique docs2 (extract_documents_by_page idx (source.getD "") p 5)
      else pf
  pure docs3

/-- Steps 3 to 6 of the retriever: narrow, then deduplicate by content
preserving first-seen order, then truncate to `k`. -/
def retrieveBody (idx : Index) (question : String) (k : Nat)
    (source : Option String) (page : Option Int) :
    Except String (List Chunk) :=
  (retrieveDocs idx question k source page).map
    (fun docs => (dedupByContent docs).take k)

/-- The sentinel chunk returned on a top-level retrieval failure; its
content is the message recovered from the artifact. -/
def errorChunk : Chunk :=
  { content :=
      "Error retrieving document context. Please check your query and try again."
    source := none
    page := none }

/-- The effective page filter: an explicitly supplied page wins,
otherwise the page detected in the question text. -/
def effPage (question : String) (page : Option Int) : Option Int :=
  match page with
  | some p => some p
  | none => detectPage question

/-- Top-level catch: any error raised during steps 3 to 5 yields the
single sentinel chunk instead of propagating. -/
def runRetrieve (idx : Index) (question : String) (k : Nat)
    (source : Option String) (page : Option Int) : List Chunk :=
  match retrieveBody idx question k source page with
  | .ok r => r
  | .error _ => [errorChunk]

/-- Steps 2 to 6 for a call that did not take the filtered fast path. -/
def afterFastPath (idx : Index) (question : String) (k : Nat)
    (source : Option String) (page : Option Int) : List Chunk :=
  runRetrieve idx question k source (effPage question page)

/-- Modelled from the spec (section 4.2): `retrieve_context` from
`qa/index_loader.py` (recovered name). An empty question returns the
empty sequence; when both filters are supplied the Page-Scoped Extractor
fast path is tried first and its results, if any, are returned trimmed
to `k`. -/
def retrieve_context (idx : Index) (question : String) (k : Nat)
    (source : Option String) (page : Option Int) : List Chunk :=
  if question = "" then []
  else
    match source, page with
    | some s, some p =>
      if (extract_documents_by_page idx s p 5).isEmpty then
        afterFastPath idx question k (some s) (some p)
      else (extract_documents_by_page idx s p 5).take k
    | some s, none => afterFastPath idx question k (some s) none
    | none, p => afterFastPath idx question k none p

/-! ## Frontend: question submission (`handleSubmit` in `App.tsx`) -/

/-- The outcome of the `fetch` to `/api/ask-question`, as seen by
`handleSubmit`: the request may reject (network error with a message),
abort on timeout, return a non-OK status whose JSON may carry an
`error` field, resolve to a null body, or resolve to a payload whose
`answer`/`source`/`page` fields may each be absent. -/
inductive ServerOutcome where
  | fetchError (message : String)
  | timeout
  | nonOk (status : Nat) (errorField : Option String)
  | okNoData
  | okData (answer : Option String) (src : Option String) (pg : Option Int)
deriving DecidableEq

/-- The state `handleSubmit` leaves behind: whether a network request
was issued, the `answer` state, and the `loading` state. -/
structure SubmitResult where
  requested : Bool
  answer : String
  loading : Bool
deriving DecidableEq

/-- JavaScript `!question.trim()`: the question is empty or whitespace
only. -/
def isBlank (q : String) : Bool :=
  q.toList.all Char.isWhitespace

/-- A JavaScript-falsy optional string: absent or empty. -/
def jsFalsy (s : Option String) : Bool :=
  match s with
  | none => true
  | some t => t == ""

/-- `handleSubmit` from `App.tsx` (src/unnamed/part_000 lines 360-445): a
blank question alerts and returns before any request; otherwise the
response is mapped to the `answer` state — the timeout message for an
abort, `"Request failed: "` plus the thrown message for a non-OK status
(the `error` field when truthy, else the status template), the generic
message for an empty-message error, the apology for a missing answer
field — and `loading` is reset in the `finally` block. -/
def handleSubmit (question : String) (prevAnswer : String)
    (prevLoading : Bool) (outcome : ServerOutcome) : SubmitResult :=
  if isBlank question then
    { requested := false, answer := prevAnswer, loading := prevLoading }
  else
    let ans :=
      match outcome with
      | .timeout =>
        "Request timed out after 3 minutes. The question might be too complex or the model is busy. Please try a simpler question or wait a moment and try again."
      | .fetchError m =>
        if m = "" then "An unexpected error occurred. Please try again."
        else "Request failed: " ++ m
      | .nonOk status err =>
        "Request failed: " ++
          (if jsFalsy err then "Server responded with status " ++ toString status
           else err.getD "")
      | .okNoData => "Sorry, could not get an answer."
      | .okData a _ _ =>
        if jsFalsy a then "Sorry, could not get an answer." else a.getD ""
    { requested := true, answer := ans, loading := false }

/-- Whether the outcome is one of the failure cases of the claim: a
fetch error, timeout, non-OK status, or a missing/empty answer field. -/
def isFailureOutcome : ServerOutcome → Bool
  | .okData a _ _ => jsFalsy a
  | _ => true

/-! ## Frontend: document-modal question update (`renderDocumentModal`) -/

/-- Character-wise lowercasing, as JavaScript `toLowerCase`. -/
def lowerChars (cs : List Char) : List Char :=
  cs.map Char.toLower

/-- JavaScript `big.includes(small)`: substring containment. -/
def strIncludes (big small : List Char) : Bool :=
  decide (small <:+: big)

/-- The question updater run when a document name is tapped in the
document modal (src/unnamed/part_000 lines 660-671): append the document
name, space-separated, unless the question already contains it
case-insensitively. -/
def appendDocName (prevQuestion item : List Char) : List Char :=
  if strIncludes (lowerChars prevQuestion) (lowerChars item) then prevQuestion
  else prevQuestion ++ (if prevQuestion.isEmpty then [] else [' ']) ++ item

/-! ## Concrete fixtures used by witnesses and counterexamples -/

/-- An index whose every search raises. -/
def failIdx : Index :=
  ⟨fun _ _ => .error "index failure"⟩

/-- An index whose every search succeeds with no results. -/
def okEmptyIdx : Index :=
  ⟨fun _ _ => .ok []⟩

/-- An index whose every search returns one chunk of page 2 of
`x.pdf`. -/
def oneIdx : Index :=
  ⟨fun _ _ => .ok [⟨"Beta", some "x.pdf", some 2⟩]⟩

/-! ## Helper lemmas about the deduplicating accumulator -/

lemma mem_addUnique {acc : List Chunk} {c x : Chunk}
    (h : x ∈ addUnique acc c) : x ∈ acc ∨ x = c := by
  unfold addUnique at h
  split at h
  · exact Or.inl h
  · rcases List.mem_append.mp h with h1 | h1
    · exact Or.inl h1
    · exact Or.inr (List.mem_singleton.mp h1)

lemma mem_mergeUnique {cs : List Chunk} :
    ∀ {acc : List Chunk} {x : Chunk}, x ∈ mergeUnique acc cs →
      x ∈ acc ∨ x ∈ cs := by
  induction cs with
  | nil => intro acc x h; exact Or.inl h
  | cons c cs ih =>
    intro acc x h
    rcases @ih (addUnique acc c) x h with h1 | h1
    · rcases mem_addUnique h1 with h2 | h2
      · exact Or.inl h2
      · exact Or.inr (h2 ▸ List.mem_cons_self c cs)
    · exact Or.inr (List.mem_cons_of_mem c h1)

lemma contents_addUnique_nodup {acc : List Chunk} {c : Chunk}
    (h : (acc.map Chunk.content).Nodup) :
    ((addUnique acc c).map Chunk.content).Nodup := by
  unfold addUnique
  split
  next hm => exact h
  next hm =>
    rw [List.map_append]
    rw [List.nodup_append]
    refine ⟨h, List.nodup_singleton _, ?_⟩
    intro a ha
    simp only [List.map_cons, List.map_nil, List.mem_singleton]
    intro hac
    apply hm
    rw [List.mem_map] at ha
    obtain ⟨d, hd, hdc⟩ := ha
    unfold contentMem
    rw [List.any_eq_true]
    exact ⟨d, hd, by rw [beq_iff_eq, hdc, hac]⟩

lemma contents_mergeUnique_nodup {cs : List Chunk} :
    ∀ {acc : List Chunk}, (acc.map Chunk.content).Nodup →
      ((mergeUnique acc cs).map Chunk.content).Nodup := by
  induction cs with
  | nil => intro acc h; exact h
  | cons c cs ih =>
    intro acc h
    exact ih (contents_addUnique_nodup h)

lemma contents_dedupByContent_nodup (cs : List Chunk) :
    ((dedupByContent cs).map Chunk.content).Nodup :=
  contents_mergeUnique_nodup List.nodup_nil

/-! ## Helper lemmas about the extractor cascade -/

lemma runStrategies_fst_mem (idx : Index) (s : String) (p : Int) (m : Nat)
    (strats : List (String × Nat)) :
    ∀ (acc : List Chunk), (∀ c ∈ acc, matchesMeta s p c = true) →
      ∀ c ∈ (runStrategies idx s p m strats acc).1, matchesMeta s p c = true := by
  induction strats with
  | nil => intro acc hacc c hc; exact hacc c hc
  | cons qn rest ih =>
    intro acc hacc c hc
    obtain ⟨q, n⟩ := qn
    rw [runStrategies] at hc
    split at hc
    · exact hacc c hc
    · refine ih _ ?_ c hc
      intro d hd
      rcases mem_mergeUnique hd with h1 | h1
      · exact hacc d h1
      · exact (List.mem_filter.mp h1).2

lemma runStrategies_fst_nodup (idx : Index) (s : String) (p : Int) (m : Nat)
    (strats : List (String × Nat)) :
    ∀ (acc : List Chunk), (acc.map Chunk.content).Nodup →
      (((runStrategies idx s p m strats acc).1).map Chunk.content).Nodup := by
  induction strats with
  | nil => intro acc hacc; exact hacc
  | cons qn rest ih =>
    intro acc hacc
    obtain ⟨q, n⟩ := qn
    rw [runStrategies]
    split
    · exact hacc
    · exact ih _ (contents_mergeUnique_nodup hacc)

lemma extract_mem {idx : Index} {s : String} {p : Int} {m : Nat} {c : Chunk}
    (h : c ∈ extract_documents_by_page idx s p m) : matchesMeta s p c = true := by
  unfold extract_documents_by_page extractWithTrace at h
  split at h
  · simp at h
  · split at h
    · rcases mem_mergeUnique h with h1 | h1
      · exact runStrategies_fst_mem idx s p m _ [] (by intro c hc; simp at hc) c h1
      · exact (List.mem_filter.mp h1).2
    · exact runStrategies_fst_mem idx s p m _ [] (by intro c hc; simp at hc) c h

lemma extract_nodup (idx : Index) (s : String) (p : Int) (m : Nat) :
    ((extract_documents_by_page idx s p m).map Chunk.content).Nodup := by
  unfold extract_documents_by_page extractWithTrace
  split
  · simp
  · split
    · exact contents_mergeUnique_nodup
        (runStrategies_fst_nodup idx s p m _ [] (by simp))
    · exact runStrategies_fst_nodup idx s p m _ [] (by simp)

/-! ## Helper lemmas about the retriever body -/

lemma retrieveBody_ok {idx : Index} {q : String} {k : Nat}
    {s : Option String} {p : Option Int} {r : List Chunk}
    (h : retrieveBody idx q k s p = .ok r) :
    ∃ docs, r = (dedupByContent docs).take k := by
  unfold retrieveBody at h
  cases hd : retrieveDocs idx q k s p with
  | ok docs =>
    rw [hd] at h
    simp only [Except.map] at h
    exact ⟨docs, (Except.ok.injEq _ _ ▸ h :).symm⟩
  | error e =>
    rw [hd] at h
    simp [Except.map] at h

lemma runRetrieve_cases (idx : Index) (q : String) (k : Nat)
    (s : Option String) (p : Option Int) :
    (∃ docs, runRetrieve idx q k s p = (dedupByContent docs).take k) ∨
      runRetrieve idx q k s p = [errorChunk] := by
  unfold runRetrieve
  cases hb : retrieveBody idx q k s p with
  | ok r => exact Or.inl (by obtain ⟨docs, hdocs⟩ := retrieveBody_ok hb; exact ⟨docs, hdocs⟩)
  | error e => exact Or.inr rfl

lemma runRetrieve_length_le (idx : Index) (q : String) (k : Nat)
    (s : Option String) (p : Option Int) (hk : 1 ≤ k) :
    (runRetrieve idx q k s p).length ≤ k := by
  rcases runRetrieve_cases idx q k s p with ⟨docs, hd⟩ | hd
  · rw [hd]
    exact List.length_take_le k _
  · rw [hd]
    simpa using hk

lemma runRetrieve_contents_nodup (idx : Index) (q : String) (k : Nat)
    (s : Option String) (p : Option Int) :
    ((runRetrieve idx q k s p).map Chunk.content).Nodup := by
  rcases runRetrieve_cases idx q k s p with ⟨docs, hd⟩ | hd
  · rw [hd, List.map_take]
    exact (contents_dedupByContent_nodup docs).sublist (List.take_sublist k _)
  · rw [hd]
    simp

lemma retrieve_context_error_eq {idx : Index} {q : String} {k : Nat}
    {s : Option String} {p : Option Int} {e : String}
    (hq : q ≠ "")
    (hfast : ∀ ss pp, s = some ss → p = some pp →
      extract_documents_by_page idx ss pp 5 = [])
    (herr : retrieveBody idx q k s (effPage q p) = .error e) :
    retrieve_context idx q k s p = [errorChunk] := by
  unfold retrieve_context
  rw [if_neg hq]
  cases s with
  | some ss =>
    cases p with
    | some pp =>
      have hf := hfast ss pp rfl rfl
      dsimp only
      rw [hf]
      simp only [List.isEmpty_nil, if_true]
      unfold afterFastPath runRetrieve
      rw [herr]
    | none =>
      dsimp only
      unfold afterFastPath runRetrieve
      rw [herr]
  | none =>
    dsimp only
    unfold afterFastPath runRetrieve
    rw [herr]

/-- Claim C1 counterexample: with `k = 0` and an index whose searches
raise, `retrieve_context` still returns the one-element sentinel, so the
returned length exceeds `k`. -/
theorem retrieve_context_cap_counterexample :
    ¬ (retrieve_context failIdx "hi" 0 none none).length ≤ 0 := by
  decide

/-- Claim C1 (amended): for every index, question, source and page
filters, and result cap `k ≥ 1`, the sequence returned by
`retrieve_context` has length at most `k` (for `k = 0` an index failure
still yields the length-one sentinel). -/
theorem retrieve_context_length_le (idx : Index) (q : String) (k : Nat)
    (s : Option String) (p : Option Int) (hk : 1 ≤ k) :
    (retrieve_context idx q k s p).length ≤ k := by
  unfold retrieve_context
  split
  · simp
  · split
    · split
      · exact runRetrieve_length_le _ _ _ _ _ hk
      · exact List.length_take_le k _
    · exact runRetrieve_length_le _ _ _ _ _ hk
    · exact runRetrieve_length_le _ _ _ _ _ hk

/-- Witness for C1 at concrete inputs. -/
theorem retrieve_context_length_le_witness :
    (retrieve_context okEmptyIdx "hello" 3 none none).length ≤ 3 :=
  retrieve_context_length_le okEmptyIdx "hello" 3 none none (by decide)

/-- Claim C2: for every input, no two entries of the sequence returned
by `retrieve_context` have identical content text. -/
theorem retrieve_context_contents_nodup (idx : Index) (q : String)
    (k : Nat) (s : Option String) (p : Option Int) :
    ((retrieve_context idx q k s p).map Chunk.content).Nodup := by
  unfold retrieve_context
  split
  · simp
  · split
    · split
      · exact runRetrieve_contents_nodup _ _ _ _ _
      · rw [List.map_take]
        exact (extract_nodup _ _ _ _).sublist (List.take_sublist k _)
    · exact runRetrieve_contents_nodup _ _ _ _ _
    · exact runRetrieve_contents_nodup _ _ _ _ _

/-- Claim C3: an exception arising during query fan-out, source
narrowing or page narrowing is caught at the top level and the function
returns the single sentinel chunk, whose content is the human-readable
error message, instead of propagating (the embedding is a total
function, so no exception can escape). -/
theorem retrieve_context_error_sentinel (idx : Index) (q : String)
    (k : Nat) (s : Option String) (p : Option Int) (e : String)
    (hq : q ≠ "")
    (hfast : ∀ ss pp, s = some ss → p = some pp →
      extract_documents_by_page idx ss pp 5 = [])
    (herr : retrieveBody idx q k s (effPage q p) = .error e) :
    retrieve_context idx q k s p = [errorChunk] :=
  retrieve_context_error_eq hq hfast herr

/-- Witness for C3: a concrete always-raising index yields exactly the
sentinel. -/
theorem retrieve_context_error_sentinel_witness :
    retrieve_context failIdx "hi" 3 none none = [errorChunk] :=
  retrieve_context_error_sentinel failIdx "hi" 3 none none "index failure"
    (by decide) (fun ss pp h => by cases h) (by rfl)

/-- Claim C4 counterexample: for the non-empty question `"hello"` and an
index that searches successfully but finds nothing, `retrieve_context`
returns the empty sequence, so a non-empty question does not guarantee a
non-empty result. -/
theorem retrieve_context_nonempty_counterexample :
    "hello" ≠ "" ∧ retrieve_context okEmptyIdx "hello" 3 none none = [] := by
  exact ⟨by decide, by rfl⟩

/-- Claim C4 (amended): the empty question always yields the empty
sequence; a non-empty question is guaranteed a non-empty result only
when an index error occurs (the single sentinel chunk) — an index that
returns no chunks yields the empty sequence even for a non-empty
question. -/
theorem retrieve_context_emptiness (idx : Index) (q : String) (k : Nat)
    (s : Option String) (p : Option Int) :
    (q = "" → retrieve_context idx q k s p = []) ∧
    (∀ e, q ≠ "" →
      (∀ ss pp, s = some ss → p = some pp →
        extract_documents_by_page idx ss pp 5 = []) →
      retrieveBody idx q k s (effPage q p) = .error e →
      retrieve_context idx q k s p ≠ []) := by
  constructor
  · intro hq
    unfold retrieve_context
    rw [if_pos hq]
  · intro e hq hfast herr
    rw [retrieve_context_error_eq hq hfast herr]
    simp

/-- Witness for C4 at concrete inputs. -/
theorem retrieve_context_emptiness_witness :
    retrieve_context okEmptyIdx "" 3 none none = [] ∧
    retrieve_context failIdx "hi" 3 none none ≠ [] :=
  ⟨(retrieve_context_emptiness okEmptyIdx "" 3 none none).1 rfl,
   (retrieve_context_emptiness failIdx "hi" 3 none none).2 "index failure"
     (by decide) (fun ss pp h => by cases h) (by rfl)⟩

/-- Claim C5: every chunk returned by the Page-Scoped Extractor matches
the requested source and page exactly, no two returned chunks share
content, and an empty source returns the empty sequence. -/
theorem extractor_contract (idx : Index) (s : String) (p : Int) (m : Nat) :
    (s = "" → extract_documents_by_page idx s p m = []) ∧
    (∀ c ∈ extract_documents_by_page idx s p m,
      c.source = some s ∧ c.page = some p) ∧
    ((extract_documents_by_page idx s p m).map Chunk.content).Nodup := by
  refine ⟨?_, ?_, extract_nodup idx s p m⟩
  · intro hs
    unfold extract_documents_by_page extractWithTrace
    rw [if_pos hs]
  · intro c hc
    have h := extract_mem hc
    unfold matchesMeta at h
    rw [Bool.and_eq_true, beq_iff_eq, beq_iff_eq] at h
    exact h

/-- Witness for C5 at concrete inputs. -/
theorem extractor_contract_witness :
    extract_documents_by_page okEmptyIdx "" 1 5 = [] ∧
    ((⟨"Beta", some "x.pdf", some 2⟩ : Chunk).source = some "x.pdf" ∧
      (⟨"Beta", some "x.pdf", some 2⟩ : Chunk).page = some 2) :=
  ⟨(extractor_contract okEmptyIdx "" 1 5).1 rfl,
   (extractor_contract oneIdx "x.pdf" 2 1).2.1
     ⟨"Beta", some "x.pdf", some 2⟩ (by decide)⟩

/-- Claim C6: once the accumulated matching results reach `m`, no
further cascade strategy queries the index — if the first strategy alone
accumulates `m` matching chunks, the issued-query trace is exactly the
first strategy, so strategies 2 to 5 and the final broad scan never
run. -/
theorem extractor_early_exit (idx : Index) (s : String) (p : Int) (m : Nat)
    (hs : s ≠ "") (hm : 1 ≤ m)
    (h : m ≤ (mergeUnique []
      ((searchResults idx (firstPageQuery s p) 5).filter
        (matchesMeta s p))).length) :
    (extractWithTrace idx s p m).2 = [(firstPageQuery s p, 5)] := by
  have h2 : runStrategies idx s p m
      [("page " ++ toString p, 5), ("document " ++ baseName s, 50),
       (baseName s, 50), ("", 100)]
      (mergeUnique [] ((searchResults idx (firstPageQuery s p) 5).filter
        (matchesMeta s p))) =
      (mergeUnique [] ((searchResults idx (firstPageQuery s p) 5).filter
        (matchesMeta s p)), []) := by
    rw [runStrategies, if_pos h]
  have h1 : runStrategies idx s p m (pageStrategies s p) [] =
      (mergeUnique [] ((searchResults idx (firstPageQuery s p) 5).filter
        (matchesMeta s p)), [(firstPageQuery s p, 5)]) := by
    rw [pageStrategies, runStrategies,
      if_neg (show ¬ m ≤ List.length ([] : List Chunk) by
        simp only [List.length_nil]; omega)]
    dsimp only
    rw [h2]
  unfold extractWithTrace
  rw [if_neg hs, h1, if_neg (by simpa using Nat.not_lt.mpr h)]

/-- Witness for C6 at concrete inputs. -/
theorem extractor_early_exit_witness :
    (extractWithTrace oneIdx "x.pdf" 2 1).2 = [(firstPageQuery "x.pdf" 2, 5)] :=
  extractor_early_exit oneIdx "x.pdf" 2 1 (by decide) (by decide) (by decide)

/-- Claim C8: `retrieve_context` is deterministic — it is a pure
function of the index's search behaviour and its arguments, so two
calls against indices with identical (deterministic) search results
return identical sequences. -/
theorem retrieve_context_deterministic (idx1 idx2 : Index) (q : String)
    (k : Nat) (s : Option String) (p : Option Int)
    (h : ∀ query n, idx1.search query n = idx2.search query n) :
    retrieve_context idx1 q k s p = retrieve_context idx2 q k s p := by
  have he : idx1 = idx2 := by
    cases idx1 with
    | mk f =>
      cases idx2 with
      | mk g =>
        have hf : f = g := funext (fun a => funext (fun b => h a b))
        rw [hf]
  rw [he]

/-- Witness for C8 at concrete inputs. -/
theorem retrieve_context_deterministic_witness :
    retrieve_context okEmptyIdx "hello" 3 none none =
      retrieve_context okEmptyIdx "hello" 3 none none :=
  retrieve_context_deterministic okEmptyIdx okEmptyIdx "hello" 3 none none
    (fun _ _ => rfl)

lemma append_left_ne_empty (s t : String) (h : s ≠ "") : s ++ t ≠ "" := by
  intro he
  apply h
  have hd : (s ++ t).data = "".data := congrArg String.data he
  rw [String.data_append] at hd
  rcases List.append_eq_nil.mp hd with ⟨h1, _⟩
  exact String.ext (by simpa using h1)

/-- Claim C9: `handleSubmit` never propagates an exception (the
embedding is a total function); a blank question returns without issuing
a network request and leaves the state untouched; and on any fetch
error, timeout, non-OK status, or missing answer field it terminates
with a non-empty answer message and `loading` reset to `false`. -/
theorem handleSubmit_safe (q prevA : String) (prevL : Bool)
    (outcome : ServerOutcome) :
    (isBlank q = true → handleSubmit q prevA prevL outcome =
      { requested := false, answer := prevA, loading := prevL }) ∧
    (isBlank q = false → isFailureOutcome outcome = true →
      (handleSubmit q prevA prevL outcome).requested = true ∧
      (handleSubmit q prevA prevL outcome).answer ≠ "" ∧
      (handleSubmit q prevA prevL outcome).loading = false) := by
  constructor
  · intro hq
    unfold handleSubmit
    rw [if_pos hq]
  · intro hq hfail
    unfold handleSubmit
    rw [if_neg (by rw [hq]; exact Bool.false_ne_true)]
    refine ⟨rfl, ?_, rfl⟩
    cases outcome with
    | timeout => decide
    | fetchError m =>
      dsimp only
      split
      · decide
      · exact append_left_ne_empty _ _ (by decide)
    | nonOk status err =>
      exact append_left_ne_empty _ _ (by decide)
    | okNoData => decide
    | okData a src pg =>
      have hf : jsFalsy a = true := hfail
      dsimp only
      rw [if_pos hf]
      decide

/-- Witness for C9 at concrete inputs. -/
theorem handleSubmit_safe_witness :
    handleSubmit "   " "prev" false ServerOutcome.timeout =
      { requested := false, answer := "prev", loading := false } ∧
    ((handleSubmit "hi" "prev" false
        (ServerOutcome.fetchError "boom")).requested = true ∧
      (handleSubmit "hi" "prev" false
        (ServerOutcome.fetchError "boom")).answer ≠ "" ∧
      (handleSubmit "hi" "prev" false
        (ServerOutcome.fetchError "boom")).loading = false) :=
  ⟨(handleSubmit_safe "   " "prev" false ServerOutcome.timeout).1 (by decide),
   (handleSubmit_safe "hi" "prev" false (ServerOutcome.fetchError "boom")).2
     (by decide) rfl⟩

/-- Claim C10: the document-modal question updater is idempotent — a
question that already contains the tapped document name
case-insensitively is left unchanged, and applying the update twice with
the same name equals applying it once. -/
theorem appendDocName_idempotent (q d : List Char) :
    (strIncludes (lowerChars q) (lowerChars d) = true →
      appendDocName q d = q) ∧
    appendDocName (appendDocName q d) d = appendDocName q d := by
  have hpart1 : ∀ (q' : List Char),
      strIncludes (lowerChars q') (lowerChars d) = true →
        appendDocName q' d = q' := by
    intro q' h
    unfold appendDocName
    rw [if_pos h]
  refine ⟨hpart1 q, ?_⟩
  by_cases h : strIncludes (lowerChars q) (lowerChars d) = true
  · rw [hpart1 q h, hpart1 q h]
  · have hq2 : appendDocName q d =
        q ++ (if q.isEmpty then [] else [' ']) ++ d := by
      unfold appendDocName
      rw [if_neg h]
    rw [hq2]
    apply hpart1
    unfold strIncludes lowerChars
    rw [decide_eq_true_iff]
    rw [List.map_append, List.map_append]
    exact (List.suffix_append _ _).isInfix

/-- Witness for C10 at a concrete question and document name. -/
theorem appendDocName_idempotent_witness :
    appendDocName ("read doc.pdf".toList) ("Doc.pdf".toList) =
      "read doc.pdf".toList :=
  (appendDocName_idempotent ("read doc.pdf".toList) ("Doc.pdf".toList)).1
    (by decide)

end Documind
